import Mathlib

/-!
# Verification of an MMU simulation (src/main.c)

Shallow embedding of the memory-management-unit simulator: two-level
(hierarchical) page tables, first-fit physical frame allocation, memory
request arbitration and deallocation.

Modelling conventions, justified against the C source:
* C `int` values that are always non-negative in the program (sizes,
  addresses, counters, loop indices) are modelled as `Nat`; values that
  use `-1` as a sentinel (process ids, frame numbers, function results)
  or that can go negative (`physical_memory_remaining`) are `Int`.
* The global 2D arrays `physical_memory[64][16]` and
  `virtual_memory[256][16]` are modelled as total functions
  `Nat → Nat → _`.  The C code only ever reads the `.id` field of the
  `struct PCB` stored in a physical-memory cell, so a cell is modelled
  by that id alone; a virtual-memory cell is read through `.page_number`
  and `.process.id` only, so it is modelled by those two fields.
* `(int)ceil((double)x / 16)` for a non-negative int `x` is exactly
  `(x + 15) / 16` in `Nat` arithmetic (the doubles involved are small
  integers, so the floating computation is exact).
* `printf` output is ignored; the branch taken by
  `hierarchical_translation` is reported as a `TranslationOutcome` so
  that the observable behaviour (page fault vs. already-assigned) is
  kept.
-/

/-! ## Configuration constants (main.c lines 8-43) -/

def MAX_PROCESS_COUNT : Nat := 8
def MIN_PROCESS_SIZE : Nat := 16
def MAX_PROCESS_SIZE : Nat := 64
def FRAME_SIZE : Nat := 16
def PHYSICAL_MEMORY_SIZE : Nat := FRAME_SIZE * 64          -- 1024
def NO_OF_FRAMES : Nat := PHYSICAL_MEMORY_SIZE / FRAME_SIZE -- 64
def PAGE_SIZE : Nat := FRAME_SIZE                           -- 16
def VIRTUAL_MEMORY_SIZE : Nat := 4096
def NO_OF_PAGES : Nat := VIRTUAL_MEMORY_SIZE / PAGE_SIZE    -- 256
def PAGE_TABLE_ENTRY_SIZE : Nat := 4
def NO_OF_PAGE_TABLE_ENTRIES_IN_PAGE : Nat := PAGE_SIZE / PAGE_TABLE_ENTRY_SIZE -- 4
def OUTER_PAGE_TABLE_SIZE : Nat := NO_OF_PAGES / NO_OF_PAGE_TABLE_ENTRIES_IN_PAGE -- 64

/-! ## Data model (main.c lines 53-92) -/

/-- `struct page_table_entry` (main.c line 53): `frame_number` uses the
sentinel `-1` for "no frame"; `valid` is a C int used as a boolean. -/
structure page_table_entry where
  frame_number : Int
  valid : Nat
deriving DecidableEq

/-- `struct PCB` (main.c line 66).  The 2D array
`inner_page_tables[OUTER_PAGE_TABLE_SIZE][NO_OF_PAGE_TABLE_ENTRIES_IN_PAGE]`
is modelled as a total function on indices. -/
structure PCB where
  id : Int
  size : Nat
  size_in_memory : Nat
  inner_page_tables : Nat → Nat → page_table_entry

/-- `struct page` (main.c line 79): a virtual-memory cell.  The C code
stores a whole `struct PCB` in the `process` field but only ever reads
`process.id`, so the slot is modelled by `page_number` and that id. -/
structure page where
  page_number : Nat
  pid : Int

/-- The mutable globals of main.c (lines 88-92): `physical_memory`,
`virtual_memory`, `physical_memory_remaining`, `no_of_page_faults`.
A physical cell is modelled by the id of the `struct PCB` stored in it
(the only field the program reads). -/
structure MMUState where
  physical_memory : Nat → Nat → Int
  virtual_memory : Nat → Nat → page
  physical_memory_remaining : Int
  no_of_page_faults : Nat

/-! ## Index lists

`idxs i n = [i, i+1, ..., i+n-1]` drives every `for` loop of the C code
in the embedding; recursion on the list keeps all definitions
structurally recursive (hence evaluable by `decide`). -/

def idxs : Nat → Nat → List Nat
  | _, 0 => []
  | i, n + 1 => i :: idxs (i + 1) n

/-! ## first_fit (main.c lines 294-345) -/

/-- The inner `while (byte_counter != FRAME_SIZE)` loop of `first_fit`
(main.c lines 305-313) walks the 16 byte-slots of frame `i` and breaks
on the first occupied one; the subsequent test
`byte_counter == FRAME_SIZE` therefore holds iff every byte-slot of the
frame is unowned, which is what this function computes. -/
def frame_free (mem : Nat → Nat → Int) (i : Nat) : Bool :=
  (idxs 0 FRAME_SIZE).all fun j => mem i j == -1

/-- `run_free mem s k` holds iff the `k` consecutive frames starting at
`s` are all free (every byte-slot unowned). -/
def run_free (mem : Nat → Nat → Int) (s k : Nat) : Bool :=
  (idxs 0 k).all fun t => frame_free mem (s + t)

/-- The scan loop of `first_fit` (main.c lines 304-325).  State: the
index list still to visit, `start_frame` (`-1` when no run is open) and
`frame_counter`.  Mirrors the C control flow: a free frame opens or
extends the current run and the loop `break`s once
`frame_counter == required_no_of_frames`; an occupied frame resets both
variables (and the `break` test then fires only when the requirement is
`0`). -/
def first_fit_go (mem : Nat → Nat → Int) (required : Nat) :
    List Nat → Int → Nat → Int × Nat
  | [], start_frame, frame_counter => (start_frame, frame_counter)
  | i :: rest, start_frame, frame_counter =>
    if frame_free mem i then
      if frame_counter + 1 = required then
        ((if start_frame = -1 then (i : Int) else start_frame), frame_counter + 1)
      else
        first_fit_go mem required rest
          (if start_frame = -1 then (i : Int) else start_frame) (frame_counter + 1)
    else
      if 0 = required then (-1, 0)
      else first_fit_go mem required rest (-1) 0

/-- The value `first_fit` returns for a scan over the whole physical
memory with a required frame count: the starting frame on success,
`-1` otherwise (main.c lines 328-344). -/
def first_fit_result (mem : Nat → Nat → Int) (required : Nat) : Int :=
  let res := first_fit_go mem required (idxs 0 NO_OF_FRAMES) (-1) 0
  if res.2 = required then res.1 else -1

/-- `first_fit` (main.c lines 294-345).  On success the commit loop
(lines 330-334) runs `for i in [start, start+required)` an inner loop of
`FRAME_SIZE` iterations, but every iteration writes the same cell
`physical_memory[i][offset] = *process` — so exactly the column `offset`
of each frame of the run receives the process (the id is what is
stored / observed).  `physical_memory_remaining` is decremented by the
*declared* size `process->size` (line 338), not by `size_in_memory`.
Returns the C function's return value together with the updated
globals. -/
def first_fit (process : PCB) (offset : Nat) (s : MMUState) : Int × MMUState :=
  let required_no_of_frames := (process.size_in_memory + FRAME_SIZE - 1) / FRAME_SIZE
  let res := first_fit_go s.physical_memory required_no_of_frames (idxs 0 NO_OF_FRAMES) (-1) 0
  if res.2 = required_no_of_frames then
    (res.1,
      { s with
        physical_memory := fun a b =>
          if res.1 ≤ (a : Int) ∧ (a : Int) < res.1 + (required_no_of_frames : Int) ∧ b = offset
          then process.id else s.physical_memory a b,
        physical_memory_remaining := s.physical_memory_remaining - (process.size : Int) })
  else (-1, s)

/-! ## Page tables and translation (main.c lines 214-252, 354-384) -/

/-- `update_page_table` (main.c lines 373-384): recompute the two-level
indices from the logical address and set `frame_number` (whatever value
was passed in, including `-1`) and `valid = 1` on that entry. -/
def update_page_table (process : PCB) (logical_address : Nat) (frame_number : Int) : PCB :=
  let page_number := logical_address / PAGE_SIZE
  let inner_page_table_no := page_number / NO_OF_PAGE_TABLE_ENTRIES_IN_PAGE
  let inner_page_table_offset := page_number % NO_OF_PAGE_TABLE_ENTRIES_IN_PAGE
  { process with
    inner_page_tables := fun a b =>
      if a = inner_page_table_no ∧ b = inner_page_table_offset
      then { frame_number := frame_number, valid := 1 }
      else process.inner_page_tables a b }

/-- Which branch `hierarchical_translation` took: the page-fault branch
(reporting the allocator's return value) or the
"Page ... has already been assigned to a frame" branch. -/
inductive TranslationOutcome where
  | pageFault (frame_number : Int)
  | alreadyMapped (page_number : Nat)
deriving DecidableEq

/-- Result of `hierarchical_translation`: the (possibly updated) PCB of
the process, the updated globals, and the branch taken. -/
structure TransResult where
  process : PCB
  state : MMUState
  outcome : TranslationOutcome

/-- `hierarchical_translation` (main.c lines 214-252).  Decomposes the
address, unconditionally marks the run of
`ceil(size_in_memory / PAGE_SIZE)` virtual pages starting at
`page_number` (lines 226-230; the inner loop runs `FRAME_SIZE` times but
always writes column `offset`, and the write `.process = *process`
leaves the cell's `page_number` field unchanged), then tests the page
table entry.  The fault branch (entry's `frame_number == -1`) bumps
`no_of_page_faults`, calls `first_fit` and then calls
`update_page_table` with whatever `first_fit` returned — there is no
check for the `-1` failure sentinel.  There is also no bounds check on
`page_number` anywhere: the C code indexes
`inner_page_tables[page_number/4]` and `virtual_memory[i]` directly
(out-of-bounds indices are undefined behaviour in C; the total-function
model simply evaluates them). -/
def hierarchical_translation (logical_address : Nat) (process : PCB) (s : MMUState) :
    TransResult :=
  let page_number := logical_address / PAGE_SIZE
  let offset := logical_address % PAGE_SIZE
  let required_no_of_pages := (process.size_in_memory + PAGE_SIZE - 1) / PAGE_SIZE
  let vm' := fun a b =>
    if page_number ≤ a ∧ a < page_number + required_no_of_pages ∧ b = offset
    then { page_number := (s.virtual_memory a b).page_number, pid := process.id }
    else s.virtual_memory a b
  let s1 := { s with virtual_memory := vm' }
  let inner_page_table_no := page_number / NO_OF_PAGE_TABLE_ENTRIES_IN_PAGE
  let inner_page_table_offset := page_number % NO_OF_PAGE_TABLE_ENTRIES_IN_PAGE
  let pte := process.inner_page_tables inner_page_table_no inner_page_table_offset
  if pte.frame_number = -1 then
    let s2 := { s1 with no_of_page_faults := s1.no_of_page_faults + 1 }
    let res := first_fit process offset s2
    { process := update_page_table process logical_address res.1,
      state := res.2,
      outcome := .pageFault res.1 }
  else
    { process := process, state := s1, outcome := .alreadyMapped page_number }

/-! ## Process lifecycle (main.c lines 469-519, 354-363) -/

/-- `create_process` (main.c lines 469-499).  The C code computes
`no_of_processes` as
`sizeof(master_outer_page_table) / sizeof(master_outer_page_table[0])`,
which is the compile-time array capacity `MAX_PROCESS_COUNT = 8`, not
the number of live processes; the guard `no_of_processes >
MAX_PROCESS_COUNT` is therefore the constant test `8 > 8`.  The process
size comes from the external `generate_random_process_size` and is a
parameter here.  Fields the C code leaves uninitialized (the inner page
tables of both branches, `size`/`size_in_memory` of the failure PCB)
are given fixed values; `initialize_process_page_tables` is called on
every successfully created process before any other use. -/
def create_process (process_number : Nat) (process_size : Nat) : PCB :=
  let no_of_processes : Nat := MAX_PROCESS_COUNT
  if no_of_processes > MAX_PROCESS_COUNT then
    { id := -1, size := 0, size_in_memory := 0,
      inner_page_tables := fun _ _ => { frame_number := -1, valid := 0 } }
  else
    { id := (process_number : Int), size := process_size, size_in_memory := 0,
      inner_page_tables := fun _ _ => { frame_number := -1, valid := 0 } }

/-- `initialize_process_page_tables` (main.c lines 354-363): every
in-bounds entry gets `frame_number = -1`, `valid = 0`. -/
def init_process_page_tables (process : PCB) : PCB :=
  { process with
    inner_page_tables := fun i j =>
      if i < OUTER_PAGE_TABLE_SIZE ∧ j < NO_OF_PAGE_TABLE_ENTRIES_IN_PAGE
      then { frame_number := -1, valid := 0 }
      else process.inner_page_tables i j }

/-- `memory_request` (main.c lines 508-519).  The request size comes
from the external `generate_random_request_size` (range
`[1, process->size]`) and is a parameter.  Grant iff
`request < physical_memory_remaining` (strict); on grant
`size_in_memory` is set to the request and returned, on denial `-1` is
returned and the PCB is untouched. -/
def memory_request (process : PCB) (request : Nat) (s : MMUState) : Int × PCB :=
  if (request : Int) < s.physical_memory_remaining then
    ((request : Int), { process with size_in_memory := request })
  else
    (-1, process)

/-! ## Lookup and deallocation (main.c lines 528-616) -/

/-- Inner column loop of `find_process_page_number` (main.c lines
532-537): first column of row `i` whose stored process id matches. -/
def find_in_row (vm : Nat → Nat → page) (pid : Int) (i : Nat) : List Nat → Option Nat
  | [] => none
  | j :: rest => if (vm i j).pid == pid then some j else find_in_row vm pid i rest

/-- Row loop of `find_process_page_number` (main.c lines 531-538):
row-major scan; the first matching cell's stored `page_number` field is
returned. -/
def find_process_page_number_go (vm : Nat → Nat → page) (pid : Int) : List Nat → Int
  | [] => -1
  | i :: rest =>
    match find_in_row vm pid i (idxs 0 PAGE_SIZE) with
    | some j => ((vm i j).page_number : Int)
    | none => find_process_page_number_go vm pid rest

/-- `find_process_page_number` (main.c lines 528-541). -/
def find_process_page_number (process : PCB) (s : MMUState) : Int :=
  find_process_page_number_go s.virtual_memory process.id (idxs 0 NO_OF_PAGES)

/-- `find_process_frame_number` (main.c lines 550-566): look up the
process's page, then its page table entry; return the frame number only
if the entry's `valid` bit is set.  In the model stored page numbers are
`Nat`, so in the found case (`page_number ≠ -1`) the `Int.toNat`
conversion used for indexing is exact. -/
def find_process_frame_number (process : PCB) (s : MMUState) : Int :=
  let page_number := find_process_page_number process s
  if page_number ≠ -1 then
    let pn := page_number.toNat
    let inner_page_table_no := pn / NO_OF_PAGE_TABLE_ENTRIES_IN_PAGE
    let inner_page_table_offset := pn % NO_OF_PAGE_TABLE_ENTRIES_IN_PAGE
    if (process.inner_page_tables inner_page_table_no inner_page_table_offset).valid ≠ 0 then
      (process.inner_page_tables inner_page_table_no inner_page_table_offset).frame_number
    else -1
  else -1

/-- `memory_deallocation` (main.c lines 574-616).  When the process is
found in physical memory (`frame_number != -1`):
* `no_of_frames = process->size / FRAME_SIZE` — integer (floor)
  division of the *declared* size (line 580);
* that many frames starting at `frame_number` have every byte-slot's id
  reset to `-1` (the `if (id != -1)` guards make the net effect exactly
  that);
* `physical_memory_remaining += process->size` (declared size, line
  593);
* `find_process_page_number` is called again (only virtual memory is
  read, which is unchanged at that point, so it is evaluated on the
  incoming state), the single page table entry for that page is
  invalidated, and the same number of virtual pages have their stored
  process id cleared.
Otherwise nothing changes. -/
def memory_deallocation (process : PCB) (s : MMUState) : PCB × MMUState :=
  let frame_number := find_process_frame_number process s
  let no_of_frames := process.size / FRAME_SIZE
  if frame_number ≠ -1 then
    let mem' := fun (a b : Nat) =>
      if frame_number ≤ (a : Int) ∧ (a : Int) < frame_number + (no_of_frames : Int) ∧ b < FRAME_SIZE
      then -1 else s.physical_memory a b
    let page_number := (find_process_page_number process s).toNat
    let inner_page_table_no := page_number / NO_OF_PAGE_TABLE_ENTRIES_IN_PAGE
    let inner_page_table_offset := page_number % NO_OF_PAGE_TABLE_ENTRIES_IN_PAGE
    let process' :=
      { process with
        inner_page_tables := fun a b =>
          if a = inner_page_table_no ∧ b = inner_page_table_offset
          then { frame_number := -1, valid := 0 }
          else process.inner_page_tables a b }
    let vm' := fun a b =>
      if page_number ≤ a ∧ a < page_number + no_of_frames ∧ b < PAGE_SIZE
      then { page_number := (s.virtual_memory a b).page_number, pid := -1 }
      else s.virtual_memory a b
    (process',
      { s with
        physical_memory := mem',
        virtual_memory := vm',
        physical_memory_remaining := s.physical_memory_remaining + (process.size : Int) })
  else (process, s)

/-! ## Memory initialization (main.c lines 390-419) -/

/-- `initialize_physical_memory` (main.c lines 407-419): every in-bounds
cell's stored id becomes `-1`. -/
def init_physical_memory (mem : Nat → Nat → Int) : Nat → Nat → Int :=
  fun i j => if i < NO_OF_FRAMES ∧ j < FRAME_SIZE then -1 else mem i j

/-- `initialize_virtual_memory` (main.c lines 390-401): every in-bounds
cell gets `page_number = i` (its row) and stored process id `-1`. -/
def init_virtual_memory (vm : Nat → Nat → page) : Nat → Nat → page :=
  fun i j => if i < NO_OF_PAGES ∧ j < PAGE_SIZE then { page_number := i, pid := -1 } else vm i j

/-- The global state right after `initialize_physical_memory` and
`initialize_virtual_memory` run in `main` (out-of-bounds cells, which
do not exist in C, are given the same shape as in-bounds ones). -/
def init_state : MMUState :=
  { physical_memory := init_physical_memory fun _ _ => -1,
    virtual_memory := init_virtual_memory fun i _ => { page_number := i, pid := -1 },
    physical_memory_remaining := (PHYSICAL_MEMORY_SIZE : Int),
    no_of_page_faults := 0 }

/-! ## Specification-side description of first fit

`lowest_free_run` is written from the spec's words ("scan physical
memory frames in increasing index order looking for the first run of
`k` consecutive frames that are all unowned", "lowest starting index
wins") and is compared against the loop-based `first_fit` from the
source. -/

/-- Scan candidate starting indices in increasing order and return the
first one opening a free run of `k` frames. -/
def lowest_free_run_go (mem : Nat → Nat → Int) (k : Nat) : List Nat → Option Nat
  | [] => none
  | s :: rest => if run_free mem s k then some s else lowest_free_run_go mem k rest

/-- The lowest starting index `s` with `s + k ≤ NO_OF_FRAMES` whose `k`
consecutive frames are all free, if any. -/
def lowest_free_run (mem : Nat → Nat → Int) (k : Nat) : Option Nat :=
  lowest_free_run_go mem k (idxs 0 (NO_OF_FRAMES + 1 - k))

/-- Loop invariant of the `first_fit` scan, at the start of iteration
`i` with loop variables `frame_counter` and `start_frame`:
the counter is still short of the requirement; some `r` marks the start
of the currently open run (`r + frame_counter = i`), every frame of
`[r, i)` is free, the run is maximal to the left (`r` is `0` or frame
`r - 1` is occupied), `start_frame` is `-1` exactly while the counter
is `0` and otherwise `r`; and no free run of `k` frames fits entirely
inside the already-scanned prefix `[0, i)`. -/
def ScanInv (mem : Nat → Nat → Int) (k i frame_counter : Nat) (start_frame : Int) : Prop :=
  frame_counter < k ∧
  ∃ r : Nat, r + frame_counter = i ∧
    (∀ t, r ≤ t → t < i → frame_free mem t = true) ∧
    (r = 0 ∨ frame_free mem (r - 1) = false) ∧
    start_frame = (if frame_counter = 0 then (-1 : Int) else (r : Int)) ∧
    (∀ u, u + k ≤ i → run_free mem u k = false)

/-! ## Concrete inputs used by witnesses and counterexamples -/

/-- Fresh inner page tables, as produced by
`initialize_process_page_tables`: every entry unmapped and invalid. -/
def fresh_tables : Nat → Nat → page_table_entry :=
  fun _ _ => { frame_number := -1, valid := 0 }

/-- Scenario A, first process: declared and granted 48 bytes = 3 frames. -/
def procA : PCB := { id := 0, size := 48, size_in_memory := 48, inner_page_tables := fresh_tables }

/-- Scenario A, second process: declared and granted 32 bytes = 2 frames. -/
def procB : PCB := { id := 1, size := 32, size_in_memory := 32, inner_page_tables := fresh_tables }

/-- A process for the failed-allocation scenario: granted 16 bytes. -/
def procC2 : PCB := { id := 1, size := 16, size_in_memory := 16, inner_page_tables := fresh_tables }

/-- A state in which every byte-slot of every frame is owned (by
process 0), so no free frame exists. -/
def full_state : MMUState :=
  { physical_memory := fun _ _ => 0,
    virtual_memory := fun i _ => { page_number := i, pid := 0 },
    physical_memory_remaining := 0,
    no_of_page_faults := 0 }

/-- A process for the marking-bug scenario: granted 16 bytes, id 3. -/
def procC3 : PCB := { id := 3, size := 16, size_in_memory := 16, inner_page_tables := fresh_tables }

/-- A process for the deallocation-count scenario: declared size 17
bytes (2 frames once granted in full), granted 17 bytes. -/
def procC4 : PCB := { id := 4, size := 17, size_in_memory := 17, inner_page_tables := fresh_tables }

/-- Translation of logical address 0 for `procC4` from the freshly
initialized state: allocates `ceil(17/16) = 2` frames. -/
def transC4 : TransResult := hierarchical_translation 0 procC4 init_state

/-- Deallocation of `procC4` right after that allocation. -/
def deallocC4 : PCB × MMUState := memory_deallocation transC4.process transC4.state

/-- A process used for the request-arbitration witness. -/
def procC5 : PCB := { id := 0, size := 64, size_in_memory := 0, inner_page_tables := fresh_tables }

/-- A process for the capacity round-trip witness: declared and granted
16 bytes. -/
def procC6 : PCB := { id := 0, size := 16, size_in_memory := 16, inner_page_tables := fresh_tables }

/-- Translation of logical address 0 for `procC6` from the freshly
initialized state. -/
def transC6 : TransResult := hierarchical_translation 0 procC6 init_state

/-- A PCB whose entry for page 0 is *valid* but carries the unmapped
frame sentinel `-1` — exactly the entry state that
`hierarchical_translation` leaves behind after a failed allocation
(it calls `update_page_table` with `first_fit`'s `-1`). -/
def procC7bad : PCB :=
  { id := 2, size := 16, size_in_memory := 16,
    inner_page_tables := fun a b =>
      if a = 0 ∧ b = 0 then { frame_number := -1, valid := 1 } else fresh_tables a b }

/-- A PCB whose entry for page 0 is valid and mapped to frame 5. -/
def procC7 : PCB :=
  { id := 2, size := 16, size_in_memory := 16,
    inner_page_tables := fun a b =>
      if a = 0 ∧ b = 0 then { frame_number := 5, valid := 1 } else fresh_tables a b }

/-- A process for the address-range scenario: granted 16 bytes. -/
def procC8 : PCB := { id := 0, size := 16, size_in_memory := 16, inner_page_tables := fresh_tables }

/-- A process for the capacity-decrement witness: declared 32 bytes but
granted only 16. -/
def procC10 : PCB := { id := 0, size := 32, size_in_memory := 16, inner_page_tables := fresh_tables }

/-! ## Lemmas -/

lemma mem_idxs (t : Nat) : ∀ n i, t ∈ idxs i n ↔ i ≤ t ∧ t < i + n := by
  intro n
  induction n with
  | zero => intro i; simp [idxs]
  | succ m ih =>
    intro i
    simp only [idxs, List.mem_cons, ih]
    omega

lemma frame_free_iff (mem : Nat → Nat → Int) (i : Nat) :
    frame_free mem i = true ↔ ∀ j, j < FRAME_SIZE → mem i j = -1 := by
  simp only [frame_free, List.all_eq_true, mem_idxs, beq_iff_eq]
  constructor
  · intro h j hj; exact h j ⟨Nat.zero_le j, by omega⟩
  · intro h j hj; exact h j (by omega)

lemma run_free_iff (mem : Nat → Nat → Int) (s k : Nat) :
    run_free mem s k = true ↔ ∀ t, t < k → frame_free mem (s + t) = true := by
  simp only [run_free, List.all_eq_true, mem_idxs]
  constructor
  · intro h t ht; exact h t ⟨Nat.zero_le t, by omega⟩
  · intro h t ht; exact h t (by omega)

lemma first_fit_fst (process : PCB) (offset : Nat) (s : MMUState) :
    (first_fit process offset s).1 =
      first_fit_result s.physical_memory ((process.size_in_memory + FRAME_SIZE - 1) / FRAME_SIZE) := by
  simp only [first_fit, first_fit_result]
  split <;> rfl

/-- Characterization of the candidate scan: over candidates
`[a, a+n)`, assuming all earlier candidates fail, the result is the
least candidate opening a free run (or `none` and all candidates in the
range fail). -/
lemma lowest_free_run_go_spec (mem : Nat → Nat → Int) (k : Nat) :
    ∀ n a,
      (∀ s, lowest_free_run_go mem k (idxs a n) = some s →
        a ≤ s ∧ s < a + n ∧ run_free mem s k = true ∧
        ∀ u, a ≤ u → u < s → run_free mem u k = false) ∧
      (lowest_free_run_go mem k (idxs a n) = none →
        ∀ u, a ≤ u → u < a + n → run_free mem u k = false) := by
  intro n
  induction n with
  | zero =>
    intro a
    constructor
    · intro s hs; simp [idxs, lowest_free_run_go] at hs
    · intro _ u h1 h2; omega
  | succ m ih =>
    intro a
    by_cases ha : run_free mem a k = true
    · constructor
      · intro s hs
        simp only [idxs, lowest_free_run_go, if_pos ha, Option.some.injEq] at hs
        subst hs
        exact ⟨Nat.le_refl a, by omega, ha, fun u h1 h2 => absurd h1 (by omega)⟩
      · intro hnone
        simp [idxs, lowest_free_run_go, if_pos ha] at hnone
    · have ha' : run_free mem a k = false := by
        cases h : run_free mem a k
        · rfl
        · exact absurd h ha
      constructor
      · intro s hs
        simp only [idxs, lowest_free_run_go, if_neg ha] at hs
        obtain ⟨h1, h2, h3, h4⟩ := (ih (a + 1)).1 s hs
        refine ⟨by omega, by omega, h3, ?_⟩
        intro u hu1 hu2
        rcases Nat.eq_or_lt_of_le hu1 with h | h
        · rw [← h]; exact ha'
        · exact h4 u h hu2
      · intro hnone
        simp only [idxs, lowest_free_run_go, if_neg ha] at hnone
        intro u h1 h2
        rcases Nat.eq_or_lt_of_le h1 with h | h
        · rw [← h]; exact ha'
        · exact (ih (a + 1)).2 hnone u h (by omega)

lemma lowest_free_run_some (mem : Nat → Nat → Int) (k s : Nat)
    (h : lowest_free_run mem k = some s) :
    s + k ≤ NO_OF_FRAMES ∧ run_free mem s k = true ∧
      ∀ u, u < s → run_free mem u k = false := by
  obtain ⟨h1, h2, h3, h4⟩ := (lowest_free_run_go_spec mem k (NO_OF_FRAMES + 1 - k) 0).1 s h
  have hN : NO_OF_FRAMES = 64 := rfl
  refine ⟨by omega, h3, fun u hu => h4 u (Nat.zero_le u) hu⟩

lemma lowest_free_run_none (mem : Nat → Nat → Int) (k : Nat)
    (h : lowest_free_run mem k = none) :
    ∀ s, s + k ≤ NO_OF_FRAMES → run_free mem s k = false := by
  intro s hs
  have hN : NO_OF_FRAMES = 64 := rfl
  exact (lowest_free_run_go_spec mem k (NO_OF_FRAMES + 1 - k) 0).2 h s (Nat.zero_le s) (by omega)

/-- Main loop lemma for the `first_fit` scan: from any state satisfying
the invariant, the loop either stops with `frame_counter = required`,
in which case `start_frame` is the least index opening a free run of
`required` frames, or finishes the whole memory having established that
no such run exists. -/
lemma first_fit_go_spec (mem : Nat → Nat → Int) (k : Nat) (hk : 1 ≤ k) :
    ∀ n i frame_counter start_frame, i + n = NO_OF_FRAMES →
      ScanInv mem k i frame_counter start_frame →
      ((first_fit_go mem k (idxs i n) start_frame frame_counter).2 = k →
        ∃ s : Nat, (first_fit_go mem k (idxs i n) start_frame frame_counter).1 = (s : Int) ∧
          s + k ≤ NO_OF_FRAMES ∧ run_free mem s k = true ∧
          ∀ u, u < s → run_free mem u k = false) ∧
      ((first_fit_go mem k (idxs i n) start_frame frame_counter).2 ≠ k →
        ∀ u, u + k ≤ NO_OF_FRAMES → run_free mem u k = false) := by
  have hN : NO_OF_FRAMES = 64 := rfl
  intro n
  induction n with
  | zero =>
    intro i frame_counter start_frame hi hinv
    obtain ⟨hck, r, hr, hfree, hbdry, hstart, hnowin⟩ := hinv
    constructor
    · intro habs
      simp only [idxs, first_fit_go] at habs
      omega
    · intro _ u hu
      exact hnowin u (by omega)
  | succ m ih =>
    intro i frame_counter start_frame hi hinv
    obtain ⟨hck, r, hr, hfree, hbdry, hstart, hnowin⟩ := hinv
    cases hf : frame_free mem i with
    | true =>
      -- the frame at index i is free
      have hstart' : (if start_frame = -1 then (i : Int) else start_frame) = (r : Int) := by
        by_cases hc0 : frame_counter = 0
        · have : r = i := by omega
          subst this
          rw [hstart, if_pos hc0]
          simp
        · rw [hstart, if_neg hc0]
          rw [if_neg (by omega)]
      by_cases hbreak : frame_counter + 1 = k
      · -- the run is complete: the loop breaks and returns (r, k)
        have hgo : first_fit_go mem k (idxs i (m + 1)) start_frame frame_counter =
            ((if start_frame = -1 then (i : Int) else start_frame), frame_counter + 1) := by
          simp only [idxs, first_fit_go, hf, if_pos hbreak]
          simp
        rw [hgo]
        constructor
        · intro _
          refine ⟨r, by simpa using hstart', by omega, ?_, ?_⟩
          · rw [run_free_iff]
            intro t ht
            rcases (by omega : t < frame_counter ∨ t = frame_counter) with h | h
            · exact hfree (r + t) (by omega) (by omega)
            · rw [h, show r + frame_counter = i from hr]
              exact hf
          · intro u hu
            exact hnowin u (by omega)
        · intro habs
          simp at habs
          omega
      · -- the run grows; recurse with the extended invariant
        have hgo : first_fit_go mem k (idxs i (m + 1)) start_frame frame_counter =
            first_fit_go mem k (idxs (i + 1) m) (r : Int) (frame_counter + 1) := by
          simp only [idxs, first_fit_go, hf, if_neg hbreak]
          rw [hstart']
          simp
        rw [hgo]
        refine ih (i + 1) (frame_counter + 1) (r : Int) (by omega) ?_
        refine ⟨by omega, r, by omega, ?_, hbdry, by rw [if_neg (by omega)], ?_⟩
        · intro t h1 h2
          rcases (by omega : t < i ∨ t = i) with h | h
          · exact hfree t h1 h
          · subst h; exact hf
        · intro u hu
          rcases (by omega : u + k ≤ i ∨ u + k = i + 1) with h | h
          · exact hnowin u h
          · -- a run ending exactly at i would have to cross the occupied
            -- frame r - 1 (the counter is still short of k)
            cases hrf : run_free mem u k with
            | false => rfl
            | true =>
              exfalso
              have hur : u < r := by omega
              have hr1 : 1 ≤ r := by omega
              have hb : frame_free mem (r - 1) = false := by
                rcases hbdry with h0 | h0
                · omega
                · exact h0
              have := (run_free_iff mem u k).1 hrf (r - 1 - u) (by omega)
              rw [show u + (r - 1 - u) = r - 1 by omega] at this
              rw [this] at hb
              exact Bool.true_eq_false.mp hb
    | false =>
      -- the frame at index i is occupied: reset and recurse
      have hgo : first_fit_go mem k (idxs i (m + 1)) start_frame frame_counter =
          first_fit_go mem k (idxs (i + 1) m) (-1) 0 := by
        simp only [idxs, first_fit_go, hf, if_neg (by omega : ¬ 0 = k)]
        simp
      rw [hgo]
      refine ih (i + 1) 0 (-1) (by omega) ?_
      refine ⟨by omega, i + 1, by omega, ?_, ?_, by simp, ?_⟩
      · intro t h1 h2; omega
      · right
        simpa using hf
      · intro u hu
        rcases (by omega : u + k ≤ i ∨ u + k = i + 1) with h | h
        · exact hnowin u h
        · cases hrf : run_free mem u k with
          | false => rfl
          | true =>
            exfalso
            have := (run_free_iff mem u k).1 hrf (i - u) (by omega)
            rw [show u + (i - u) = i by omega] at this
            rw [this] at hf
            exact Bool.true_eq_false.mp hf

/-- The `first_fit` scan computes exactly the spec-side
`lowest_free_run`: the lowest starting index of a sufficient free run,
or the failure sentinel `-1` when none exists. -/
lemma first_fit_result_eq_lowest (mem : Nat → Nat → Int) (k : Nat) (hk : 1 ≤ k) :
    first_fit_result mem k =
      (match lowest_free_run mem k with
       | some s => (s : Int)
       | none => -1) := by
  have hinv : ScanInv mem k 0 0 (-1) := by
    refine ⟨hk, 0, rfl, ?_, Or.inl rfl, by simp, ?_⟩
    · intro t h1 h2; omega
    · intro u hu
      exact absurd hu (by omega)
  have h := first_fit_go_spec mem k hk NO_OF_FRAMES 0 0 (-1) (by omega) hinv
  simp only [first_fit_result]
  by_cases hres : (first_fit_go mem k (idxs 0 NO_OF_FRAMES) (-1) 0).2 = k
  · obtain ⟨s, hs1, hs2, hs3, hs4⟩ := h.1 hres
    rw [if_pos hres, hs1]
    cases hlfr : lowest_free_run mem k with
    | some s2 =>
      obtain ⟨h1, h2, h3⟩ := lowest_free_run_some mem k s2 hlfr
      have : s = s2 := by
        rcases Nat.lt_trichotomy s s2 with h | h | h
        · rw [h3 s h] at hs3
          exact absurd hs3 (by simp)
        · exact h
        · rw [hs4 s2 h] at h2
          exact absurd h2 (by simp)
      rw [this]
    | none =>
      rw [lowest_free_run_none mem k hlfr s hs2] at hs3
      exact absurd hs3 (by simp)
  · rw [if_neg hres]
    have hnone := h.2 hres
    cases hlfr : lowest_free_run mem k with
    | some s2 =>
      obtain ⟨h1, h2, h3⟩ := lowest_free_run_some mem k s2 hlfr
      rw [hnone s2 h1] at h2
      exact absurd h2 (by simp)
    | none => rfl

/-- On any run of `first_fit` that does not return the failure
sentinel, `physical_memory_remaining` is decremented by the declared
size. -/
lemma first_fit_snd_remaining (process : PCB) (offset : Nat) (s : MMUState)
    (h : (first_fit process offset s).1 ≠ -1) :
    (first_fit process offset s).2.physical_memory_remaining =
      s.physical_memory_remaining - (process.size : Int) := by
  simp only [first_fit] at h ⊢
  split at h
  next hres => rw [if_pos hres]
  next hres => exact absurd rfl h

/-- When the process is found in physical memory, deallocation adds the
declared size back to `physical_memory_remaining`. -/
lemma memory_deallocation_remaining (process : PCB) (s : MMUState)
    (h : find_process_frame_number process s ≠ -1) :
    (memory_deallocation process s).2.physical_memory_remaining =
      s.physical_memory_remaining + (process.size : Int) := by
  simp only [memory_deallocation]
  rw [if_pos h]

/-- On the page-fault path with a successful allocation, translation
leaves `physical_memory_remaining` decremented by the declared size and
does not change the process's declared size. -/
lemma hierarchical_translation_fault_remaining (logical_address : Nat) (process : PCB)
    (s : MMUState)
    (hfault : (process.inner_page_tables
        (logical_address / PAGE_SIZE / NO_OF_PAGE_TABLE_ENTRIES_IN_PAGE)
        (logical_address / PAGE_SIZE % NO_OF_PAGE_TABLE_ENTRIES_IN_PAGE)).frame_number = -1)
    (halloc : (first_fit process (logical_address % PAGE_SIZE) s).1 ≠ -1) :
    (hierarchical_translation logical_address process s).state.physical_memory_remaining =
      s.physical_memory_remaining - (process.size : Int) ∧
    (hierarchical_translation logical_address process s).process.size = process.size := by
  simp only [hierarchical_translation]
  rw [if_pos hfault]
  dsimp only
  refine ⟨?_, rfl⟩
  rw [first_fit_snd_remaining]
  rw [first_fit_fst]
  rw [first_fit_fst] at halloc
  exact halloc

/-! ## Claims -/

/-- C1: for every physical-memory state and every required frame count
(derived from `ceil(size_in_memory / FRAME_SIZE)` of a positive granted
size), the first-fit allocator scans frames in increasing index order
and returns the lowest starting index of a run of that many consecutive
frames in which every byte-slot is unowned, or `-1` when no such run
exists.  `lowest_free_run` is the spec-side description; the second and
third conjuncts pin down that it is exactly the lowest sufficient free
run / that `none` means no run exists. -/
theorem first_fit_returns_lowest_free_run (process : PCB) (offset : Nat) (s : MMUState)
    (hgr : 1 ≤ process.size_in_memory) :
    ((first_fit process offset s).1 =
      (match lowest_free_run s.physical_memory
          ((process.size_in_memory + FRAME_SIZE - 1) / FRAME_SIZE) with
       | some t => (t : Int)
       | none => -1)) ∧
    (∀ t, lowest_free_run s.physical_memory
        ((process.size_in_memory + FRAME_SIZE - 1) / FRAME_SIZE) = some t →
      t + (process.size_in_memory + FRAME_SIZE - 1) / FRAME_SIZE ≤ NO_OF_FRAMES ∧
      run_free s.physical_memory t
        ((process.size_in_memory + FRAME_SIZE - 1) / FRAME_SIZE) = true ∧
      ∀ u, u < t → run_free s.physical_memory u
        ((process.size_in_memory + FRAME_SIZE - 1) / FRAME_SIZE) = false) ∧
    (lowest_free_run s.physical_memory
        ((process.size_in_memory + FRAME_SIZE - 1) / FRAME_SIZE) = none →
      ∀ t, t + (process.size_in_memory + FRAME_SIZE - 1) / FRAME_SIZE ≤ NO_OF_FRAMES →
      run_free s.physical_memory t
        ((process.size_in_memory + FRAME_SIZE - 1) / FRAME_SIZE) = false) := by
  have hFS : FRAME_SIZE = 16 := rfl
  have hk : 1 ≤ (process.size_in_memory + FRAME_SIZE - 1) / FRAME_SIZE := by
    rw [hFS]
    omega
  refine ⟨?_, ?_, ?_⟩
  · rw [first_fit_fst]
    exact first_fit_result_eq_lowest _ _ hk
  · intro t ht
    exact lowest_free_run_some _ _ t ht
  · intro hn t htk
    exact lowest_free_run_none _ _ hn t htk

/-- C1 witness (Scenario A): from the freshly initialized 64-frame
memory, a 3-frame allocation returns start frame 0, and a subsequent
2-frame allocation (after the first one committed) returns start frame
3. -/
theorem first_fit_returns_lowest_free_run_witness :
    1 ≤ procA.size_in_memory ∧
    (first_fit procA 0 init_state).1 = 0 ∧
    1 ≤ procB.size_in_memory ∧
    (first_fit procB 0 (first_fit procA 0 init_state).2).1 = 3 := by
  refine ⟨by decide, ?_, by decide, ?_⟩
  · have h := (first_fit_returns_lowest_free_run procA 0 init_state (by decide)).1
    rw [h, show lowest_free_run init_state.physical_memory
        ((procA.size_in_memory + FRAME_SIZE - 1) / FRAME_SIZE) = some 0 from by decide]
    rfl
  · have h := (first_fit_returns_lowest_free_run procB 0
      (first_fit procA 0 init_state).2 (by decide)).1
    rw [h, show lowest_free_run (first_fit procA 0 init_state).2.physical_memory
        ((procB.size_in_memory + FRAME_SIZE - 1) / FRAME_SIZE) = some 3 from by decide]
    rfl

/-- C2: the allocator does return the failure sentinel `-1` when no
sufficient run exists (here: every byte-slot of memory owned), but the
claimed "no partial state is committed / the entry remains invalid"
fails on the code: `hierarchical_translation` calls `update_page_table`
with the `-1` it got back, leaving the faulting entry with
`frame_number = -1` yet `valid = 1` — contradicting the claim (and the
source's own documentation of `valid` as "whether a page has a
corresponding frame").  `physical_memory_remaining` is indeed left
unchanged. -/
theorem failed_allocation_still_updates_page_table :
    (hierarchical_translation 0 procC2 full_state).outcome =
      TranslationOutcome.pageFault (-1) ∧
    ((hierarchical_translation 0 procC2 full_state).process.inner_page_tables 0 0).frame_number
      = -1 ∧
    ((hierarchical_translation 0 procC2 full_state).process.inner_page_tables 0 0).valid = 1 ∧
    (hierarchical_translation 0 procC2 full_state).state.physical_memory_remaining =
      full_state.physical_memory_remaining := by decide

/-- C3: the claim says every byte-slot of every allocated frame is
marked as owned; the code's commit loop writes
`physical_memory[i][offset]` on every inner iteration, so only the one
column `offset` of each frame of the run is marked.  Here a successful
1-frame allocation at offset 1 marks slot (0,1) but leaves slots (0,0)
and (0,2) unowned. -/
theorem first_fit_marks_only_offset_column :
    (first_fit procC3 1 init_state).1 = 0 ∧
    (first_fit procC3 1 init_state).2.physical_memory 0 1 = procC3.id ∧
    (first_fit procC3 1 init_state).2.physical_memory 0 0 = -1 ∧
    (first_fit procC3 1 init_state).2.physical_memory 0 2 = -1 := by decide

/-- C4: the claim says deallocation clears
`ceil(granted_size / frame_size)` frames; the code computes
`no_of_frames = process->size / FRAME_SIZE` — floor division of the
*declared* size.  For a process with declared = granted = 17 bytes,
allocation marks `ceil(17/16) = 2` frames but deallocation clears
`17/16 = 1` frame: slot (1,0) keeps the process id after
deallocation. -/
theorem deallocation_clears_floor_of_declared_size :
    (procC4.size_in_memory + FRAME_SIZE - 1) / FRAME_SIZE = 2 ∧
    procC4.size / FRAME_SIZE = 1 ∧
    transC4.state.physical_memory 0 0 = procC4.id ∧
    transC4.state.physical_memory 1 0 = procC4.id ∧
    deallocC4.2.physical_memory 0 0 = -1 ∧
    deallocC4.2.physical_memory 1 0 = procC4.id := by decide

/-- C5: a memory request is granted iff it is strictly smaller than the
remaining physical capacity; on grant `size_in_memory` is set to the
request (and returned), on denial `-1` is returned and `size_in_memory`
keeps its prior value; requesting exactly the remaining capacity is
denied. -/
theorem memory_request_grant_iff (process : PCB) (request : Nat) (s : MMUState) :
    ((memory_request process request s).1 ≠ -1 ↔
      (request : Int) < s.physical_memory_remaining) ∧
    ((request : Int) < s.physical_memory_remaining →
      (memory_request process request s).1 = (request : Int) ∧
      (memory_request process request s).2.size_in_memory = request) ∧
    (¬ (request : Int) < s.physical_memory_remaining →
      (memory_request process request s).1 = -1 ∧
      (memory_request process request s).2.size_in_memory = process.size_in_memory) ∧
    ((request : Int) = s.physical_memory_remaining →
      (memory_request process request s).1 = -1) := by
  by_cases h : (request : Int) < s.physical_memory_remaining
  · refine ⟨⟨fun _ => h, fun _ => ?_⟩,
      fun _ => ⟨by simp [memory_request, if_pos h],
                by simp [memory_request, if_pos h]⟩,
      fun hc => absurd h hc, fun he => by omega⟩
    simp only [memory_request, if_pos h]
    omega
  · refine ⟨⟨fun hc => ?_, fun hc => absurd hc h⟩, fun hc => absurd hc h,
      fun _ => ⟨by simp [memory_request, if_neg h],
                by simp [memory_request, if_neg h]⟩,
      fun _ => by simp [memory_request, if_neg h]⟩
    simp only [memory_request, if_neg h] at hc
    exact (hc rfl).elim

/-- C5 witness: with 1024 bytes remaining, a request of exactly 1024
bytes is denied (`-1`, `size_in_memory` stays 0) and a request of 1023
bytes is granted. -/
theorem memory_request_grant_iff_witness :
    (memory_request procC5 1024 init_state).1 = -1 ∧
    (memory_request procC5 1024 init_state).2.size_in_memory = 0 ∧
    (memory_request procC5 1023 init_state).1 = 1023 := by
  have h1 := (memory_request_grant_iff procC5 1024 init_state).2.2.1 (by decide)
  have h2 := (memory_request_grant_iff procC5 1023 init_state).2.1 (by decide)
  exact ⟨h1.1, h1.2, h2.1⟩

/-- C6: byte-exact round trip of the capacity counter.  If a
translation takes the fault path and its allocation succeeds, and the
subsequent deallocation finds the process in memory, then
`physical_memory_remaining` after the deallocation equals its value
before the allocation (allocation subtracts `process->size`,
deallocation adds the same `process->size` back). -/
theorem remaining_capacity_round_trip (process : PCB) (logical_address : Nat) (s : MMUState)
    (hfault : (process.inner_page_tables
        (logical_address / PAGE_SIZE / NO_OF_PAGE_TABLE_ENTRIES_IN_PAGE)
        (logical_address / PAGE_SIZE % NO_OF_PAGE_TABLE_ENTRIES_IN_PAGE)).frame_number = -1)
    (halloc : (first_fit process (logical_address % PAGE_SIZE) s).1 ≠ -1)
    (hfind : find_process_frame_number
        (hierarchical_translation logical_address process s).process
        (hierarchical_translation logical_address process s).state ≠ -1) :
    (memory_deallocation
        (hierarchical_translation logical_address process s).process
        (hierarchical_translation logical_address process s).state).2.physical_memory_remaining
      = s.physical_memory_remaining := by
  have h1 := hierarchical_translation_fault_remaining logical_address process s hfault halloc
  rw [memory_deallocation_remaining _ _ hfind, h1.1, h1.2]
  omega

/-- C6 witness: a 16-byte process allocated from the freshly
initialized state and then deallocated brings
`physical_memory_remaining` back to its initial 1024. -/
theorem remaining_capacity_round_trip_witness :
    (procC6.inner_page_tables 0 0).frame_number = -1 ∧
    (first_fit procC6 0 init_state).1 ≠ -1 ∧
    find_process_frame_number transC6.process transC6.state ≠ -1 ∧
    (memory_deallocation transC6.process transC6.state).2.physical_memory_remaining =
      init_state.physical_memory_remaining := by
  refine ⟨by decide, by decide, by decide, ?_⟩
  exact remaining_capacity_round_trip procC6 0 init_state (by decide) (by decide) (by decide)

/-- C7 counterexample: the claim "re-translating an address whose entry
is already *valid* performs no allocation" is false on the code, which
tests `frame_number == -1` and ignores `valid`: for an entry with
`valid = 1` but `frame_number = -1` (the state a failed allocation
leaves behind), translation takes the page-fault path and re-invokes
the allocator (the fault counter increments and an allocation is
performed). -/
theorem translation_refaults_on_valid_unmapped_entry :
    (procC7bad.inner_page_tables 0 0).valid = 1 ∧
    (hierarchical_translation 0 procC7bad init_state).outcome =
      TranslationOutcome.pageFault 0 ∧
    (hierarchical_translation 0 procC7bad init_state).state.no_of_page_faults =
      init_state.no_of_page_faults + 1 := by decide

/-- C7 (amended): re-translating an address whose entry already has an
assigned frame (`frame_number ≠ -1`, which the code tests — rather
than `valid = true` as the claim stated) performs no allocation: the
outcome is already-mapped, the process (hence the entry, which
therefore transitions from unmapped to mapped at most once without an
intervening deallocation) is unchanged, and physical memory, the fault
counter and the capacity counter are untouched. -/
theorem translation_already_mapped_no_allocation (logical_address : Nat) (process : PCB)
    (s : MMUState)
    (h : (process.inner_page_tables
        (logical_address / PAGE_SIZE / NO_OF_PAGE_TABLE_ENTRIES_IN_PAGE)
        (logical_address / PAGE_SIZE % NO_OF_PAGE_TABLE_ENTRIES_IN_PAGE)).frame_number ≠ -1) :
    (hierarchical_translation logical_address process s).outcome =
      TranslationOutcome.alreadyMapped (logical_address / PAGE_SIZE) ∧
    (hierarchical_translation logical_address process s).process = process ∧
    (hierarchical_translation logical_address process s).state.physical_memory =
      s.physical_memory ∧
    (hierarchical_translation logical_address process s).state.no_of_page_faults =
      s.no_of_page_faults ∧
    (hierarchical_translation logical_address process s).state.physical_memory_remaining =
      s.physical_memory_remaining := by
  simp only [hierarchical_translation]
  rw [if_neg h]
  exact ⟨rfl, rfl, rfl, rfl, rfl⟩

/-- C7 witness: a process whose entry for page 0 is mapped to frame 5;
translating address 0 reports already-mapped and performs no
allocation. -/
theorem translation_already_mapped_no_allocation_witness :
    (procC7.inner_page_tables 0 0).frame_number ≠ -1 ∧
    (hierarchical_translation 0 procC7 init_state).outcome =
      TranslationOutcome.alreadyMapped 0 ∧
    (hierarchical_translation 0 procC7 init_state).state.no_of_page_faults =
      init_state.no_of_page_faults := by
  have h := translation_already_mapped_no_allocation 0 procC7 init_state (by decide)
  exact ⟨by decide, h.1, h.2.2.2.1⟩

/-- C8: the claim says a page number at or beyond the maximum
representable page number is rejected with an out-of-range condition;
the code has no such check.  Logical address 4096
(= `VIRTUAL_MEMORY_SIZE`) yields page number `256 = NO_OF_PAGES`, yet
translation proceeds on the page-fault path and invokes the allocator
(in C this dereferences `inner_page_tables[64]` and writes
`virtual_memory[256]`, both out of bounds). -/
theorem translation_lacks_address_range_check :
    VIRTUAL_MEMORY_SIZE / PAGE_SIZE = 256 ∧
    NO_OF_PAGES = 256 ∧
    (hierarchical_translation VIRTUAL_MEMORY_SIZE procC8 init_state).outcome =
      TranslationOutcome.pageFault 0 ∧
    (hierarchical_translation VIRTUAL_MEMORY_SIZE procC8 init_state).state.no_of_page_faults
      = 1 := by decide

/-- C9: the claim says admission fails with a capacity error once the
maximum process count is reached; the code computes `no_of_processes`
as `sizeof(master_outer_page_table)/sizeof(master_outer_page_table[0])`
— the constant array capacity `MAX_PROCESS_COUNT` — so its guard is the
constant test `8 > 8` and creation *always* succeeds with the
sequentially assigned id, even for the 9th and later processes. -/
theorem create_process_never_rejects (process_number process_size : Nat) :
    (create_process process_number process_size).id = (process_number : Int) ∧
    (create_process process_number process_size).id ≠ -1 := by
  have hid : (create_process process_number process_size).id = (process_number : Int) := rfl
  refine ⟨hid, ?_⟩
  rw [hid]
  omega

/-- C10: every successful first-fit allocation decrements
`physical_memory_remaining` by the process's declared `size`, not by
the granted `size_in_memory`; when the grant is smaller than the
declared size, capacity drops by strictly more bytes than were
granted. -/
theorem first_fit_decrements_by_declared_size (process : PCB) (offset : Nat) (s : MMUState)
    (h : (first_fit process offset s).1 ≠ -1) :
    (first_fit process offset s).2.physical_memory_remaining =
      s.physical_memory_remaining - (process.size : Int) ∧
    (process.size_in_memory < process.size →
      s.physical_memory_remaining - (first_fit process offset s).2.physical_memory_remaining
        > (process.size_in_memory : Int)) := by
  have hrem := first_fit_snd_remaining process offset s h
  refine ⟨hrem, fun hlt => ?_⟩
  rw [hrem]
  omega

/-- C10 witness: a process with declared size 32 but granted size 16:
the successful allocation leaves 1024 - 32 = 992 bytes remaining, a
drop of 32 > 16 bytes. -/
theorem first_fit_decrements_by_declared_size_witness :
    (first_fit procC10 0 init_state).1 ≠ -1 ∧
    procC10.size_in_memory < procC10.size ∧
    (first_fit procC10 0 init_state).2.physical_memory_remaining = 992 := by
  refine ⟨by decide, by decide, ?_⟩
  rw [(first_fit_decrements_by_declared_size procC10 0 init_state (by decide)).1]
  decide
